import Mathlib

/-!
Verification development for the jams-data converters.

Two scripts are embedded here, shallowly, with Python strings as `String`,
Python floats restricted to the exact values the scripts manipulate as `ℚ`,
Python dicts as insertion-ordered association lists, and raising an uncaught
exception as returning `none`.

Sources:
  src/parsers/msd_tagtraum_cd_parser.py  (namespace `Tagtraum` below)
  src/parsers/isophonics_parser.py       (namespace `Isophonics` below)

File IO, directory creation, the jams container library (import_lab, save,
find_with_extension) and the CLI layer are collaborators outside the scope of
the embedded logic: a lab file is represented by its already-parsed event
rows, and a saved jam by the record that would be serialized.
-/

/-! ### Python string primitives (exact models of the str methods the scripts use) -/

/-- Python whitespace as stripped by str.strip() with no argument. -/
def pySpace (c : Char) : Bool :=
  c = ' ' || c = '\t' || c = '\n' || c = '\r' || c = '\x0b' || c = '\x0c'

/-- Python str.strip() with no argument. -/
def pyStrip (s : String) : String :=
  String.mk (((s.toList.dropWhile pySpace).reverse.dropWhile pySpace).reverse)

/-- Python s.strip(c) for a single-character argument. -/
def pyStripChar (s : String) (c : Char) : String :=
  String.mk (((s.toList.dropWhile (· = c)).reverse.dropWhile (· = c)).reverse)

/-- Python s.startswith(p). -/
def pyStartsWith (s p : String) : Bool :=
  p.toList.isPrefixOf s.toList

/-- Python s.lower() (the scripts only lower ASCII labels). -/
def pyLower (s : String) : String :=
  String.mk (s.toList.map Char.toLower)

/-- Helper for `pySplit`: structurally recursive on a fuel argument so that the
kernel can evaluate it; the fuel is always at least the length of the input. -/
def pySplitAux (sep : List Char) : Nat → List Char → List Char → List (List Char)
  | _, [], acc => [acc.reverse]
  | 0, rest, acc => [acc.reverse ++ rest]
  | n + 1, c :: cs, acc =>
    if sep.isPrefixOf (c :: cs) then
      acc.reverse :: pySplitAux sep n (List.drop sep.length (c :: cs)) []
    else pySplitAux sep n cs (c :: acc)

/-- Python s.split(sep) for a non-empty separator. -/
def pySplit (s sep : String) : List String :=
  (pySplitAux sep.toList s.toList.length s.toList []).map (fun l => String.mk l)

/-- Python sep.join(parts). -/
def joinWith (sep : String) : List String → String
  | [] => ""
  | [x] => x
  | x :: y :: rest => x ++ sep ++ joinWith sep (y :: rest)

/-- Python s.replace(old, new) for a non-empty old. -/
def pyReplace (s old new : String) : String :=
  joinWith new (pySplit s old)

/-- Python substring containment: needle in hay. -/
def strContains (hay needle : String) : Bool :=
  (List.range (hay.toList.length + 1)).any
    (fun i => needle.toList.isPrefixOf (hay.toList.drop i))

/-- os.path.basename for the slash-separated paths the scripts handle. -/
def basename (p : String) : String :=
  ((pySplit p "/").getLast?).getD ""

/-- First component of os.path.splitext: drop the text from the last dot on. -/
def splitextStem (s : String) : String :=
  if s.toList.contains '.' then
    String.mk (((s.toList.reverse.dropWhile (fun c => ¬ c = '.')).drop 1).reverse)
  else s

/-- jams.util.filebase: the filename stem of a path. -/
def filebase (p : String) : String :=
  splitextStem (basename p)

/-! ### Python dicts as insertion-ordered association lists -/

/-- Lookup d[k], as an Option: a KeyError is `none`. -/
def dictFind {α : Type} : List (String × α) → String → Option α
  | [], _ => none
  | p :: d, k => if p.1 = k then some p.2 else dictFind d k

/-- Assignment d[k] = v: replace the existing entry in place, else append. -/
def dictInsert {α : Type} : List (String × α) → String → α → List (String × α)
  | [], k, v => [(k, v)]
  | p :: d, k, v => if p.1 = k then (k, v) :: d else p :: dictInsert d k v

/-- Python set.add on a duplicate-free insertion-ordered list. -/
def setInsert (s : List String) (g : String) : List String :=
  if g ∈ s then s else s ++ [g]

namespace Tagtraum

/-! ### msd_tagtraum_cd_parser.py -/

/-- State accumulated by `load_tagtraum_dataset` (lines 66-68 plus the
warning log of line 87). -/
structure LoadState where
  values : List (String × List String)
  genres : List String
  has_minority_genres : Bool
  failedLines : List String
deriving Repr, DecidableEq

/-- Loop body of `load_tagtraum_dataset` (lines 69-87): skip comment lines,
split the stripped line on tabs, store a one- or two-genre vote list under the
track id, accumulate the genre set and the minority flag, and log any line
with another field count. -/
def parseLine (st : LoadState) (line : String) : LoadState :=
  if pyStartsWith line "#" then st
  else
    match pySplit (pyStrip line) "\t" with
    | [track_id, genre] =>
        { st with values := dictInsert st.values track_id [genre],
                  genres := setInsert st.genres genre }
    | [track_id, majority_genre, m] =>
        let minority_genre := pyStrip m
        { st with values := dictInsert st.values track_id [majority_genre, minority_genre],
                  genres := setInsert (setInsert st.genres majority_genre) minority_genre,
                  has_minority_genres := true }
    | _ => { st with failedLines := st.failedLines ++ [line] }

/-- load_tagtraum_dataset (lines 63-91), over the file given as its lines. -/
def load_tagtraum_dataset (lines : List String) : LoadState :=
  lines.foldl parseLine { values := [], genres := [], has_minority_genres := false, failedLines := [] }

/-- Specification-side view of one line: the (track id, vote list) a data line
contributes, `none` for comment lines and parse failures. Used only in theorem
statements, to name what the loader consumed. -/
def lineVotes (line : String) : Option (String × List String) :=
  if pyStartsWith line "#" then none
  else
    match pySplit (pyStrip line) "\t" with
    | [track_id, genre] => some (track_id, [genre])
    | [track_id, majority_genre, m] => some (track_id, [majority_genre, pyStrip m])
    | _ => none

/-- Whether a line is a non-comment line with exactly 3 tab-separated fields
(the lines that set has_minority_genres). -/
def is3field (line : String) : Bool :=
  !(pyStartsWith line "#") && ((pySplit (pyStrip line) "\t").length == 3)

/-- load_msd_metadata (lines 94-111): split each line on the 5-character
delimiter, keep exactly-4-field records whose track id carries votes. -/
def load_msd_metadata (msd_unique_tracks : List String)
    (tagtraum_values : List (String × List String)) : List (String × (String × String)) :=
  msd_unique_tracks.foldl
    (fun unique_tracks_values line =>
      match pySplit (pyStrip line) "<SEP>" with
      | [track_id, _collection_id, artist, title] =>
          if (dictFind tagtraum_values track_id).isSome then
            dictInsert unique_tracks_values track_id (artist, title)
          else unique_tracks_values
      | _ => unique_tracks_values)
    []

/-- Line 130: 2/3 for the cd1 dataset, 1/2 otherwise. -/
def majority_confidence (is_cd1 : Bool) : ℚ :=
  if is_cd1 then 2 / 3 else 1 / 2

/-- Line 131: the complement of the majority confidence. -/
def minority_confidence (is_cd1 : Bool) : ℚ :=
  1 - majority_confidence is_cd1

/-- Lines 122-134: variant inference from the loaded vote file, expressed by
the corpus string the run attaches to every emitted record. -/
def inferCorpus (genres : List String) (has_minority_genres : Bool) : String :=
  let is_cd1 := genres.length == 13
  let is_cd2 := !is_cd1 && has_minority_genres
  if is_cd1 then "msd tagtraum cd1"
  else if is_cd2 then "msd tagtraum cd2"
  else "msd tagtraum cd2c"

/-- One genre-vote observation (lines 164 and 168). -/
structure TagEvent where
  value : String
  confidence : ℚ
  time : ℚ
  duration : ℚ
deriving Repr, DecidableEq

/-- One saved jam of the tagtraum run: file metadata (lines 55-60) plus the
single genre record (output sharding and the constant metadata block are
not part of the embedded logic). -/
structure TagJam where
  artist : String
  title : String
  track_id : String
  ns : String
  events : List TagEvent
deriving Repr, DecidableEq

/-- Body of the loop of lines 148-178 for one track: look the track id up in
the identity table (line 150, an uncaught KeyError when absent, hence `none`),
then build the confidence-weighted events of lines 161-168. An empty vote list
would be an IndexError at genres[0]; the loader never produces one. -/
def convertTrack (majc minc : ℚ) (ns : String)
    (unique_tracks_values : List (String × (String × String)))
    (track_id : String) (gs : List String) : Option TagJam :=
  match dictFind unique_tracks_values track_id with
  | none => none
  | some (artist, title) =>
    match gs with
    | [] => none
    | g0 :: rest =>
      let confidence := if (g0 :: rest).length = 1 then (1 : ℚ) else majc
      let tail : List TagEvent :=
        match rest with
        | [g1] => [{ value := g1, confidence := minc, time := 0, duration := 0 }]
        | _ => []
      some { artist := artist, title := title, track_id := track_id, ns := ns,
             events := { value := g0, confidence := confidence, time := 0, duration := 0 } :: tail }

/-- The save loop of lines 148-178 over the vote table in iteration order:
each converted jam is saved as it is produced; the first failing track aborts
the loop (second component true) and nothing after it is emitted. -/
def emitAll (majc minc : ℚ) (ns : String)
    (unique_tracks_values : List (String × (String × String))) :
    List (String × List String) → List TagJam × Bool
  | [] => ([], false)
  | (track_id, gs) :: rest =>
    match convertTrack majc minc ns unique_tracks_values track_id gs with
    | none => ([], true)
    | some j =>
      let r := emitAll majc minc ns unique_tracks_values rest
      (j :: r.1, r.2)

/-- process (lines 114-178): load the vote file, join the identity table,
infer the variant, and convert every track. -/
def process (tagtraum_dataset msd_unique_tracks : List String) : List TagJam × Bool :=
  let st := load_tagtraum_dataset tagtraum_dataset
  let unique_tracks_values := load_msd_metadata msd_unique_tracks st.values
  let is_cd1 := st.genres.length == 13
  let ns := if is_cd1 then "tag_msd_tagtraum_cd1" else "tag_msd_tagtraum_cd2"
  emitAll (majority_confidence is_cd1) (minority_confidence is_cd1) ns unique_tracks_values st.values

/-- Vote file of the C1 counterexample: two data lines, two tracks. -/
def exDataset : List String := ["TRAAAAA1\tRock", "TRAAAAA2\tPop"]

/-- Identity file of the C1 counterexample: only the second track has an
identity record. -/
def exUnique : List String := ["TRAAAAA2<SEP>X<SEP>ArtistB<SEP>TitleB"]

end Tagtraum

namespace Isophonics

/-! ### isophonics_parser.py

An imported lab annotation is a pandas DataFrame: a sequence of rows carrying
an integer index label. Right after import_lab the labels are 0, 1, 2, ...;
fix_ranges and fix_silence remove rows with `DataFrame.drop`, which removes by
label and leaves the index gapped, so a row is modelled as a (label, event)
pair and the positional/label distinction is kept throughout. -/

/-- A value cell: the raw string from the lab file, or, after
fix_beats_values, a parsed number or the missing marker (None/NaN). -/
inductive Val where
  | s : String → Val
  | num : ℚ → Val
  | nan : Val
deriving Repr, DecidableEq

/-- One annotation event: time and duration in seconds. -/
structure LabEvent where
  time : ℚ
  duration : ℚ
  value : Val
deriving Repr, DecidableEq

/-- A DataFrame row: index label paired with the event. -/
abbrev Row := Nat × LabEvent

/-- CHORDS_DICT (lines 51-64). -/
def CHORDS_DICT : List (String × String) :=
  [("E:4", "E:sus4"),
   ("Db:6", "Db:maj6"),
   ("F#min7", "F#:min7"),
   ("B:7sus", "B:maj7"),
   ("Db:6/2", "Db:maj6/2"),
   ("Ab:6", "Ab:maj6"),
   ("F:6", "F:maj6"),
   ("D:6", "D:maj6"),
   ("G:6", "G:maj6"),
   ("A:6", "A:maj6"),
   ("E:sus", "E"),
   ("E:7sus", "E:maj7")]

/-- KEYS_DICT (lines 67-69). -/
def KEYS_DICT : List (String × String) :=
  [("C#:modal", "C#")]

/-- Python dict.get(label, label). -/
def dictGet (d : List (String × String)) (k : String) : String :=
  match dictFind d k with
  | some v => v
  | none => k

/-- Fresh DataFrame labelling: label the events 0, 1, 2, ... starting at i. -/
def labelFrom : Nat → List LabEvent → List Row
  | _, [] => []
  | i, e :: es => (i, e) :: labelFrom (i + 1) es

/-- The rows of a freshly imported annotation (labels 0, 1, 2, ...). -/
def labelRows (evs : List LabEvent) : List Row :=
  labelFrom 0 evs

/-- Rewrite a string cell through a correction table; fix_chord_labels and
fix_key_labels only ever see string cells. -/
def valFix (d : List (String × String)) : Val → Val
  | .s v => .s (dictGet d v)
  | v => v

/-- fix_chord_labels (lines 84-87): rewrite every value through CHORDS_DICT.
It runs on a freshly imported annotation, where enumerate positions and index
labels coincide, so it is a per-row map. -/
def fix_chord_labels (rows : List Row) : List Row :=
  rows.map (fun r => (r.1, { r.2 with value := valFix CHORDS_DICT r.2.value }))

/-- fix_key_labels (lines 90-93): rewrite every value through KEYS_DICT;
also runs on a fresh index, hence a per-row map. -/
def fix_key_labels (rows : List Row) : List Row :=
  rows.map (fun r => (r.1, { r.2 with value := valFix KEYS_DICT r.2.value }))

/-- fix_beats_values (lines 96-104), parameterized by the Python float()
parser: a parse failure becomes None and then, through astype("float"), the
missing marker; also runs on a fresh index. -/
def fix_beats_values (pyFloat : String → Option ℚ) (rows : List Row) : List Row :=
  rows.map (fun r => (r.1, { r.2 with value :=
    match r.2.value with
    | .s v => match pyFloat v with
              | some q => .num q
              | none => .nan
    | .num q => .num q
    | .nan => .nan }))

/-- Python enumerate over the rows, collecting the positions (counted from i)
whose event satisfies p. This is the idxs list built by fix_ranges and
fix_silence: positions, not labels. -/
def idxsFrom (p : LabEvent → Bool) : Nat → List Row → List Nat
  | _, [] => []
  | i, r :: rs => if p r.2 then i :: idxsFrom p (i + 1) rs else idxsFrom p (i + 1) rs

/-- Whether some row carries the index label i. -/
def hasLabel (rows : List Row) (i : Nat) : Bool :=
  rows.any (fun r => r.1 == i)

/-- pandas DataFrame.drop(idxs): removes rows by index label; a label absent
from the index raises KeyError (`none`). -/
def dropLabels (rows : List Row) (idxs : List Nat) : Option (List Row) :=
  if idxs.all (hasLabel rows) then
    some (rows.filter (fun r => !(idxs.any (fun i => i == r.1))))
  else none

/-- The silence test of line 120 on a value cell. -/
def isSilence : Val → Bool
  | .s v => pyLower v == "silence"
  | _ => false

/-- fix_ranges (lines 107-113): collect the positions of the non-positive
durations, then drop those numbers as labels. -/
def fix_ranges (rows : List Row) : Option (List Row) :=
  dropLabels rows (idxsFrom (fun e => decide (e.duration ≤ 0)) 0 rows)

/-- fix_silence (lines 116-122): collect the positions of the silence values,
then drop those numbers as labels. -/
def fix_silence (rows : List Row) : Option (List Row) :=
  dropLabels rows (idxsFrom (fun e => isSilence e.value) 0 rows)

/-- get_duration_from_annot (lines 78-81): time plus duration of the
positionally last row, in seconds; iloc[-1] on an empty annotation raises
IndexError (`none`). -/
def get_duration_from_annot (rows : List Row) : Option ℚ :=
  match rows.getLast? with
  | some r => some (r.2.time + r.2.duration)
  | none => none

/-- Chord normalization as applied by process (lines 153-156): label fixups
then range drop on the freshly imported rows. -/
def normalizeChord (evs : List LabEvent) : Option (List Row) :=
  fix_ranges (fix_chord_labels (labelRows evs))

/-- Key normalization as applied by process (lines 159-163): label fixups,
range drop, then silence drop on the now possibly gapped index. -/
def normalizeKey (evs : List LabEvent) : Option (List Row) :=
  match fix_ranges (fix_key_labels (labelRows evs)) with
  | none => none
  | some rows => fix_silence rows

/-- Segment normalization as applied by process (lines 165-167): range drop
only. -/
def normalizeSegment (evs : List LabEvent) : Option (List Row) :=
  fix_ranges (labelRows evs)

/-- One annotation of a jam: namespace, rows, and whether the constant
Isophonics metadata block of lines 171-177 has been attached. -/
structure Annot where
  ns : String
  data : List Row
  hasMeta : Bool
deriving Repr, DecidableEq

/-- One in-progress jam: file metadata artist and duration (lines 71-75,
duration starts as None) plus the annotation list. -/
structure Track where
  artist : String
  duration : Option ℚ
  annots : List Annot
deriving Repr, DecidableEq

/-- The mutable state of process: the all_jams dict keyed by title, and the
logging.info lines issued on first encounters (line 141, recorded by title;
output paths are not part of the embedded logic). -/
structure IsoState where
  tracks : List (String × Track)
  log : List String
deriving Repr, DecidableEq

/-- Line 137: lab_file.replace(in_dir, "").strip("/").split("/"). -/
def pathParts (in_dir lab_file : String) : List String :=
  pySplit (pyStripChar (pyReplace lab_file in_dir "") '/') "/"

/-- Whether a path matches none of the four ISO_ATTRS keywords of the
dispatch on lines 144-167. -/
def matchesNoCategory (path : String) : Bool :=
  !(strContains path "beat") && !(strContains path "chordlab") &&
  !(strContains path "keylab") && !(strContains path "seglab")

/-- Lines 134-141: derive the title, and on first encounter create the jam
and extract the artist from parts[1] — an uncaught IndexError (`none`) when
the path has too few segments. -/
def firstEncounter (in_dir : String) (st : IsoState) (path : String) : Option IsoState :=
  let title := filebase path
  if (dictFind st.tracks title).isSome then some st
  else
    match (pathParts in_dir path).get? 1 with
    | none => none
    | some artist =>
        some { tracks := dictInsert st.tracks title { artist := artist, duration := none, annots := [] },
               log := st.log ++ [title] }

/-- In-place mutation of the jam stored under a title. -/
def updateTrack : List (String × Track) → String → (Track → Track) → List (String × Track)
  | [], _, _ => []
  | p :: ts, title, f => if p.1 = title then (p.1, f p.2) :: ts else p :: updateTrack ts title f

/-- The category dispatch of lines 144-167 on one file: import the lab rows
into a new annotation of the matching namespace, run the category fixups, and
for chord and segment files derive the file duration; a file matching no
keyword leaves the jam untouched (no warning is logged). -/
def dispatch (pyFloat : String → Option ℚ) (st : IsoState) (title path : String)
    (evs : List LabEvent) : Option IsoState :=
  if strContains path "beat" then
    some { st with tracks := updateTrack st.tracks title (fun tr =>
      { tr with annots := tr.annots ++
          [{ ns := "beat", data := fix_beats_values pyFloat (labelRows evs), hasMeta := false }] }) }
  else if strContains path "chordlab" then
    match normalizeChord evs with
    | none => none
    | some rows =>
      match get_duration_from_annot rows with
      | none => none
      | some d =>
        some { st with tracks := updateTrack st.tracks title (fun tr =>
          { tr with duration := some d,
                    annots := tr.annots ++ [{ ns := "chord_harte", data := rows, hasMeta := false }] }) }
  else if strContains path "keylab" then
    match normalizeKey evs with
    | none => none
    | some rows =>
      some { st with tracks := updateTrack st.tracks title (fun tr =>
        { tr with annots := tr.annots ++ [{ ns := "key_mode", data := rows, hasMeta := false }] }) }
  else if strContains path "seglab" then
    match normalizeSegment evs with
    | none => none
    | some rows =>
      match get_duration_from_annot rows with
      | none => none
      | some d =>
        some { st with tracks := updateTrack st.tracks title (fun tr =>
          { tr with duration := some d,
                    annots := tr.annots ++ [{ ns := "segment_isophonics", data := rows, hasMeta := false }] }) }
  else some st

/-- Lines 170-177: attach the constant metadata block to
jam.annotations[-1]; on a jam with no annotations this indexing raises
IndexError (`none`). -/
def attachMeta (st : IsoState) (title : String) : Option IsoState :=
  match dictFind st.tracks title with
  | none => none
  | some tr =>
    match tr.annots.getLast? with
    | none => none
    | some lastA =>
      some { st with tracks := updateTrack st.tracks title (fun tr2 =>
        { tr2 with annots := tr2.annots.dropLast ++ [{ lastA with hasMeta := true }] }) }

/-- One iteration of the loop of lines 133-177, on a file given as its path
and its parsed lab rows. -/
def stepFile (pyFloat : String → Option ℚ) (in_dir : String) (st : IsoState)
    (f : String × List LabEvent) : Option IsoState :=
  match firstEncounter in_dir st f.1 with
  | none => none
  | some st1 =>
    match dispatch pyFloat st1 (filebase f.1) f.1 f.2 with
    | none => none
    | some st2 => attachMeta st2 (filebase f.1)

/-- The whole loop of lines 133-177: an uncaught exception at any file aborts
the run. -/
def processFiles (pyFloat : String → Option ℚ) (in_dir : String) :
    IsoState → List (String × List LabEvent) → Option IsoState
  | st, [] => some st
  | st, f :: fs =>
    match stepFile pyFloat in_dir st f with
    | none => none
    | some st' => processFiles pyFloat in_dir st' fs

/-- A stand-in for the Python float() parser in concrete runs that contain no
beat file. -/
def noFloat : String → Option ℚ := fun _ => none

end Isophonics

/-! ### Helper lemmas -/

theorem dictFind_insert {α : Type} (d : List (String × α)) (k : String) (v : α) (k' : String) :
    dictFind (dictInsert d k v) k' = if k' = k then some v else dictFind d k' := by
  induction d with
  | nil =>
    rcases eq_or_ne k' k with rfl | h
    · simp [dictFind, dictInsert]
    · simp [dictFind, dictInsert, h, Ne.symm h]
  | cons p d ih =>
    rcases eq_or_ne k' k with rfl | h
    · by_cases hpk : p.1 = k'
      · simp [dictFind, dictInsert, hpk]
      · simp [dictFind, dictInsert, hpk, ih]
    · by_cases hpk : p.1 = k
      · have hpk' : p.1 ≠ k' := by rw [hpk]; exact Ne.symm h
        simp [dictFind, dictInsert, hpk, hpk', Ne.symm h, h]
      · simp [dictFind, dictInsert, hpk, ih, h]

theorem setInsert_mem (s : List String) (x g : String) :
    g ∈ setInsert s x ↔ g ∈ s ∨ g = x := by
  by_cases h : x ∈ s
  · simp only [setInsert, if_pos h]
    constructor
    · exact Or.inl
    · rintro (h1 | rfl)
      · exact h1
      · exact h
  · simp [setInsert, h]

theorem setInsert_nodup (s : List String) (x : String) (h : s.Nodup) :
    (setInsert s x).Nodup := by
  by_cases hx : x ∈ s
  · simpa [setInsert, hx] using h
  · simp only [setInsert, if_neg hx]
    refine List.Nodup.append h (List.nodup_singleton x) ?_
    intro a ha hax
    simp only [List.mem_singleton] at hax
    exact hx (hax ▸ ha)

namespace Tagtraum

theorem parseLine_spec (st : LoadState) (line : String) :
    parseLine st line =
      match lineVotes line with
      | some p =>
          { st with values := dictInsert st.values p.1 p.2,
                    genres := p.2.foldl setInsert st.genres,
                    has_minority_genres := st.has_minority_genres || is3field line }
      | none =>
          { st with failedLines :=
              if pyStartsWith line "#" then st.failedLines else st.failedLines ++ [line] } := by
  unfold parseLine lineVotes is3field
  cases hc : pyStartsWith line "#"
  · cases hs : pySplit (pyStrip line) "\t" with
    | nil => simp
    | cons a t =>
      cases t with
      | nil => simp
      | cons b t2 =>
        cases t2 with
        | nil => simp [List.foldl]
        | cons c t3 =>
          cases t3 with
          | nil => simp [List.foldl]
          | cons d t4 => simp
  · simp

theorem lineVotes_none_is3field (line : String) (h : lineVotes line = none) :
    is3field line = false := by
  unfold lineVotes at h
  unfold is3field
  cases hc : pyStartsWith line "#"
  · rw [hc] at h
    simp only [Bool.false_eq_true, if_false] at h
    cases hs : pySplit (pyStrip line) "\t" with
    | nil => simp [hs]
    | cons a t =>
      cases t with
      | nil => simp [hs]
      | cons b t2 =>
        cases t2 with
        | nil => simp [hc, hs] at h
        | cons c t3 =>
          cases t3 with
          | nil => simp [hc, hs] at h
          | cons d t4 => simp [hs]
  · simp [hc]

theorem parseLine_minority (st : LoadState) (line : String) :
    (parseLine st line).has_minority_genres =
      (st.has_minority_genres || is3field line) := by
  rw [parseLine_spec]
  cases h : lineVotes line
  · simp [lineVotes_none_is3field line h]
  · simp

theorem load_any_minority (ls : List String) (st : LoadState) :
    (ls.foldl parseLine st).has_minority_genres =
      (st.has_minority_genres || ls.any is3field) := by
  induction ls generalizing st with
  | nil => simp
  | cons l ls ih => simp [List.foldl, ih, parseLine_minority, Bool.or_assoc]

theorem foldl_setInsert_mem (gs : List String) (s : List String) (g : String) :
    g ∈ gs.foldl setInsert s ↔ g ∈ s ∨ g ∈ gs := by
  induction gs generalizing s with
  | nil => simp
  | cons a gs ih => simp [List.foldl, ih, setInsert_mem, or_assoc]

theorem parseLine_genres_mem (st : LoadState) (line : String) (g : String) :
    g ∈ (parseLine st line).genres ↔
      g ∈ st.genres ∨ ∃ p, lineVotes line = some p ∧ g ∈ p.2 := by
  rw [parseLine_spec]
  cases h : lineVotes line
  · simp [h]
  · simp [h, foldl_setInsert_mem]

theorem load_genres_mem (ls : List String) (st : LoadState) (g : String) :
    g ∈ (ls.foldl parseLine st).genres ↔
      g ∈ st.genres ∨ ∃ p ∈ ls.filterMap lineVotes, g ∈ p.2 := by
  induction ls generalizing st with
  | nil => simp
  | cons l ls ih =>
    cases h : lineVotes l with
    | none =>
      simp only [List.foldl, List.filterMap_cons_none h, ih, parseLine_genres_mem, h]
      tauto
    | some q =>
      simp only [List.foldl, List.filterMap_cons_some h, ih, parseLine_genres_mem, h,
        List.mem_cons]
      constructor
      · rintro ((hg | ⟨p, hsome, hgp⟩) | ⟨p, hp, hgp⟩)
        · exact Or.inl hg
        · obtain rfl : q = p := Option.some.inj hsome
          exact Or.inr ⟨q, Or.inl rfl, hgp⟩
        · exact Or.inr ⟨p, Or.inr hp, hgp⟩
      · rintro (hg | ⟨p, (rfl | hp), hgp⟩)
        · exact Or.inl (Or.inl hg)
        · exact Or.inl (Or.inr ⟨p, rfl, hgp⟩)
        · exact Or.inr ⟨p, hp, hgp⟩

theorem foldl_setInsert_nodup (gs : List String) (s : List String) (h : s.Nodup) :
    (gs.foldl setInsert s).Nodup := by
  induction gs generalizing s with
  | nil => exact h
  | cons a gs ih => exact ih _ (setInsert_nodup _ _ h)

theorem parseLine_genres_nodup (st : LoadState) (line : String)
    (h : st.genres.Nodup) : (parseLine st line).genres.Nodup := by
  rw [parseLine_spec]
  cases hv : lineVotes line
  · simpa using h
  · simpa using foldl_setInsert_nodup _ _ h

theorem load_genres_nodup (ls : List String) (st : LoadState) (h : st.genres.Nodup) :
    (ls.foldl parseLine st).genres.Nodup := by
  induction ls generalizing st with
  | nil => exact h
  | cons l ls ih => exact ih _ (parseLine_genres_nodup _ _ h)

theorem parseLine_values_none (st : LoadState) (line : String) (tid : String)
    (h : lineVotes line = none) :
    dictFind (parseLine st line).values tid = dictFind st.values tid := by
  rw [parseLine_spec, h]

theorem parseLine_values_some (st : LoadState) (line : String) (q : String × List String)
    (tid : String) (h : lineVotes line = some q) :
    dictFind (parseLine st line).values tid =
      if tid = q.1 then some q.2 else dictFind st.values tid := by
  rw [parseLine_spec, h]
  simp [dictFind_insert]

theorem load_values_find (ls : List String) (st : LoadState) (tid : String) :
    dictFind (ls.foldl parseLine st).values tid =
      (((ls.filterMap lineVotes).reverse.find? (fun p => decide (p.1 = tid))).map Prod.snd).or
        (dictFind st.values tid) := by
  induction ls generalizing st with
  | nil => simp
  | cons l ls ih =>
    cases h : lineVotes l with
    | none =>
      simp only [List.foldl, List.filterMap_cons_none h, ih, parseLine_values_none st l tid h]
    | some q =>
      simp only [List.foldl, List.filterMap_cons_some h, List.reverse_cons, List.find?_append,
        ih, parseLine_values_some st l q tid h]
      cases hA : (ls.filterMap lineVotes).reverse.find? (fun p => decide (p.1 = tid)) with
      | some r => simp [Option.or]
      | none =>
        by_cases hpt : q.1 = tid
        · simp [Option.or, List.find?, hpt]
        · have hpt' : ¬ tid = q.1 := fun hh => hpt hh.symm
          simp [Option.or, List.find?, hpt, hpt']

end Tagtraum

namespace Isophonics

theorem dropLabels_some (rows : List Row) (idxs : List Nat) (out : List Row)
    (h : dropLabels rows idxs = some out) :
    out = rows.filter (fun r => !(idxs.any (fun i => i == r.1))) := by
  unfold dropLabels at h
  split at h
  · exact (Option.some.inj h).symm
  · exact absurd h (by simp)

theorem labelFrom_idxs (p : LabEvent → Bool) (evs : List LabEvent) (i0 : Nat) (r : Row)
    (hr : r ∈ labelFrom i0 evs) (hp : p r.2 = true) :
    r.1 ∈ idxsFrom p i0 (labelFrom i0 evs) := by
  induction evs generalizing i0 with
  | nil => simp [labelFrom] at hr
  | cons e es ih =>
    simp only [labelFrom, List.mem_cons] at hr
    rcases hr with rfl | hr
    · simp only [labelFrom, idxsFrom]
      simp only at hp
      simp [hp]
    · have htail := ih (i0 + 1) hr
      simp only [labelFrom, idxsFrom]
      by_cases hpe : p e
      · simp [hpe, htail]
      · simp [hpe, htail]

theorem labelFrom_map (g : LabEvent → LabEvent) (evs : List LabEvent) (i : Nat) :
    (labelFrom i evs).map (fun r => (r.1, g r.2)) = labelFrom i (evs.map g) := by
  induction evs generalizing i with
  | nil => simp [labelFrom]
  | cons e es ih => simp [labelFrom, ih]

theorem fix_chord_labels_fresh (evs : List LabEvent) :
    fix_chord_labels (labelRows evs) =
      labelRows (evs.map (fun e => { e with value := valFix CHORDS_DICT e.value })) := by
  unfold fix_chord_labels labelRows
  exact labelFrom_map (fun e => { e with value := valFix CHORDS_DICT e.value }) evs 0

theorem fix_key_labels_fresh (evs : List LabEvent) :
    fix_key_labels (labelRows evs) =
      labelRows (evs.map (fun e => { e with value := valFix KEYS_DICT e.value })) := by
  unfold fix_key_labels labelRows
  exact labelFrom_map (fun e => { e with value := valFix KEYS_DICT e.value }) evs 0

theorem fix_ranges_fresh_pos (evs : List LabEvent) (out : List Row)
    (h : fix_ranges (labelRows evs) = some out) :
    ∀ r ∈ out, 0 < r.2.duration := by
  intro r hr
  unfold fix_ranges at h
  have hout := dropLabels_some _ _ _ h
  subst hout
  rw [List.mem_filter] at hr
  obtain ⟨hmem, hcond⟩ := hr
  by_contra hnl
  have hle : r.2.duration ≤ 0 := le_of_not_lt hnl
  have hp : (fun e => decide (e.duration ≤ 0)) r.2 = true := by simpa using hle
  simp only [labelRows] at hmem
  have hidx := labelFrom_idxs (fun e => decide (e.duration ≤ 0)) evs 0 r hmem hp
  have hany : ((idxsFrom (fun e => decide (e.duration ≤ 0)) 0 (labelRows evs)).any
      (fun i => i == r.1)) = true := by
    rw [List.any_eq_true]
    refine ⟨r.1, ?_, by simp⟩
    simpa [labelRows] using hidx
  simp [hany] at hcond

theorem dropLabels_subset (rows : List Row) (idxs : List Nat) (out : List Row)
    (h : dropLabels rows idxs = some out) : ∀ r ∈ out, r ∈ rows := by
  intro r hr
  rw [dropLabels_some _ _ _ h] at hr
  exact (List.mem_filter.1 hr).1

theorem updateTrack_map_found {γ : Type} (ts : List (String × Track)) (title : String)
    (f : Track → Track) (g : String × Track → γ) (tr : Track)
    (hfind : dictFind ts title = some tr) (hg : g (title, f tr) = g (title, tr)) :
    (updateTrack ts title f).map g = ts.map g := by
  induction ts with
  | nil => simp [dictFind] at hfind
  | cons p ts ih =>
    obtain ⟨p1, p2⟩ := p
    by_cases hp : p1 = title
    · subst hp
      have h2 : p2 = tr := by simpa [dictFind] using hfind
      subst h2
      simp [updateTrack, hg]
    · have h2 : dictFind ts title = some tr := by simpa [dictFind, hp] using hfind
      simp [updateTrack, hp, ih h2]

theorem matchesNoCategory_spec (path : String) (h : matchesNoCategory path = true) :
    strContains path "beat" = false ∧ strContains path "chordlab" = false ∧
    strContains path "keylab" = false ∧ strContains path "seglab" = false := by
  unfold matchesNoCategory at h
  simp only [Bool.and_eq_true, Bool.not_eq_true'] at h
  tauto

end Isophonics

/-! ### Claims about msd_tagtraum_cd_parser.py -/

/-- C7: for every non-comment line of the vote file, a line with exactly 2
tab-separated fields yields the single-vote record [genre1] for its track id,
a line with exactly 3 fields yields the two-vote record
[majority_genre, minority_genre] and sets the has-minority-votes flag, and a
line with any other field count is appended to the failure log and skipped,
with the rest of the state untouched (the load never aborts: parseLine is a
total function). -/
theorem c7_line_parsing (st : Tagtraum.LoadState) (line tid g1 g2 : String)
    (hc : pyStartsWith line "#" = false) :
    (pySplit (pyStrip line) "\t" = [tid, g1] →
       Tagtraum.parseLine st line =
         { st with values := dictInsert st.values tid [g1],
                   genres := setInsert st.genres g1 }) ∧
    (pySplit (pyStrip line) "\t" = [tid, g1, g2] →
       Tagtraum.parseLine st line =
         { st with values := dictInsert st.values tid [g1, pyStrip g2],
                   genres := setInsert (setInsert st.genres g1) (pyStrip g2),
                   has_minority_genres := true }) ∧
    ((pySplit (pyStrip line) "\t").length ≠ 2 →
     (pySplit (pyStrip line) "\t").length ≠ 3 →
       Tagtraum.parseLine st line =
         { st with failedLines := st.failedLines ++ [line] }) := by
  refine ⟨?_, ?_, ?_⟩
  · intro hs
    unfold Tagtraum.parseLine
    simp [hc, hs]
  · intro hs
    unfold Tagtraum.parseLine
    simp [hc, hs]
  · intro h2 h3
    unfold Tagtraum.parseLine
    cases hs : pySplit (pyStrip line) "\t" with
    | nil => simp [hc, hs]
    | cons a t =>
      cases t with
      | nil => simp [hc, hs]
      | cons b t2 =>
        cases t2 with
        | nil => rw [hs] at h2; simp at h2
        | cons c t3 =>
          cases t3 with
          | nil => rw [hs] at h3; simp at h3
          | cons d t4 => simp [hc, hs]

/-- C7 witness: the parsing contract evaluated on a concrete 2-field line. -/
theorem c7_witness :
    Tagtraum.parseLine ⟨[], [], false, []⟩ "TRX\tRock" =
      ⟨[("TRX", ["Rock"])], ["Rock"], false, []⟩ :=
  (c7_line_parsing ⟨[], [], false, []⟩ "TRX\tRock" "TRX" "Rock" "" rfl).1 rfl

/-- C2: variant inference is a deterministic function of the loaded vote
file: the loaded genre list is the duplicate-free list of the genres of all
parsed lines, the minority flag records exactly whether some non-comment
3-field line was seen, and the inferred variant (by its corpus string) is cd1
when there are exactly 13 distinct genres, else cd2 when a minority-vote line
was seen, else cd2c. -/
theorem c2_variant_inference (lines : List String) :
    (Tagtraum.load_tagtraum_dataset lines).genres.Nodup ∧
    (Tagtraum.load_tagtraum_dataset lines).has_minority_genres = lines.any Tagtraum.is3field ∧
    (∀ g, g ∈ (Tagtraum.load_tagtraum_dataset lines).genres ↔
        ∃ p ∈ lines.filterMap Tagtraum.lineVotes, g ∈ p.2) ∧
    Tagtraum.inferCorpus (Tagtraum.load_tagtraum_dataset lines).genres
        (Tagtraum.load_tagtraum_dataset lines).has_minority_genres =
      (if (Tagtraum.load_tagtraum_dataset lines).genres.length = 13 then "msd tagtraum cd1"
       else if lines.any Tagtraum.is3field then "msd tagtraum cd2"
       else "msd tagtraum cd2c") := by
  have hM : (Tagtraum.load_tagtraum_dataset lines).has_minority_genres =
      lines.any Tagtraum.is3field := by
    unfold Tagtraum.load_tagtraum_dataset
    rw [Tagtraum.load_any_minority]
    simp
  refine ⟨?_, hM, ?_, ?_⟩
  · unfold Tagtraum.load_tagtraum_dataset
    exact Tagtraum.load_genres_nodup _ _ (by simp)
  · intro g
    unfold Tagtraum.load_tagtraum_dataset
    rw [Tagtraum.load_genres_mem]
    simp
  · simp only [Tagtraum.inferCorpus]
    by_cases h13 : (Tagtraum.load_tagtraum_dataset lines).genres.length = 13
    · simp [h13]
    · simp [h13, hM]

/-- C2 witness: the variant equation evaluated on a concrete one-line file. -/
theorem c2_witness :
    Tagtraum.inferCorpus (Tagtraum.load_tagtraum_dataset ["TRX\tRock"]).genres
        (Tagtraum.load_tagtraum_dataset ["TRX\tRock"]).has_minority_genres =
      (if (Tagtraum.load_tagtraum_dataset ["TRX\tRock"]).genres.length = 13
       then "msd tagtraum cd1"
       else if ["TRX\tRock"].any Tagtraum.is3field then "msd tagtraum cd2"
       else "msd tagtraum cd2c") :=
  (c2_variant_inference ["TRX\tRock"]).2.2.2

/-- C10: when several data lines share a track id, the stored vote list is
the one of the last such line (the lookup equals the last parsed line with
that id), while the genre list still contains the genres of every parsed
line, and the minority flag still records whether any parsed 3-field line was
seen, including overwritten ones. -/
theorem c10_last_wins_accumulation (lines : List String) (tid : String) :
    dictFind (Tagtraum.load_tagtraum_dataset lines).values tid =
      (((lines.filterMap Tagtraum.lineVotes).reverse.find?
          (fun p => decide (p.1 = tid))).map Prod.snd) ∧
    (∀ g, g ∈ (Tagtraum.load_tagtraum_dataset lines).genres ↔
        ∃ p ∈ lines.filterMap Tagtraum.lineVotes, g ∈ p.2) ∧
    (Tagtraum.load_tagtraum_dataset lines).has_minority_genres =
      lines.any Tagtraum.is3field := by
  refine ⟨?_, ?_, ?_⟩
  · unfold Tagtraum.load_tagtraum_dataset
    rw [Tagtraum.load_values_find]
    simp [dictFind]
  · intro g
    unfold Tagtraum.load_tagtraum_dataset
    rw [Tagtraum.load_genres_mem]
    simp
  · unfold Tagtraum.load_tagtraum_dataset
    rw [Tagtraum.load_any_minority]
    simp

/-- C10 witness: last-wins lookup evaluated on a concrete duplicated id. -/
theorem c10_witness :
    dictFind (Tagtraum.load_tagtraum_dataset ["TRX\tRock", "TRX\tPop"]).values "TRX" =
      ((["TRX\tRock", "TRX\tPop"].filterMap Tagtraum.lineVotes).reverse.find?
          (fun p => decide (p.1 = "TRX"))).map Prod.snd :=
  (c10_last_wins_accumulation ["TRX\tRock", "TRX\tPop"] "TRX").1

/-- C3: under every variant (cd1, and cd2/cd2c which share is_cd1 = false), a
two-vote track converts to events whose confidences are exactly the majority
and minority confidences of the variant and sum to exactly 1, a single-vote
track converts to one event of confidence 1, and the per-variant confidences
are 2/3 and 1/3 for cd1 and 1/2 and 1/2 otherwise. -/
theorem c3_confidence_sums :
    (∀ (cd1 : Bool) (ns : String) (uniq : List (String × (String × String))) (tid g : String)
        (j : Tagtraum.TagJam),
        Tagtraum.convertTrack (Tagtraum.majority_confidence cd1)
            (Tagtraum.minority_confidence cd1) ns uniq tid [g] = some j →
          j.events.map (fun e => e.confidence) = [1]) ∧
    (∀ (cd1 : Bool) (ns : String) (uniq : List (String × (String × String))) (tid g1 g2 : String)
        (j : Tagtraum.TagJam),
        Tagtraum.convertTrack (Tagtraum.majority_confidence cd1)
            (Tagtraum.minority_confidence cd1) ns uniq tid [g1, g2] = some j →
          j.events.map (fun e => e.confidence) =
              [Tagtraum.majority_confidence cd1, Tagtraum.minority_confidence cd1] ∧
            (j.events.map (fun e => e.confidence)).sum = 1) ∧
    Tagtraum.majority_confidence true = 2 / 3 ∧ Tagtraum.minority_confidence true = 1 / 3 ∧
    Tagtraum.majority_confidence false = 1 / 2 ∧
    Tagtraum.minority_confidence false = 1 / 2 := by
  refine ⟨?_, ?_, ?_, ?_, ?_, ?_⟩
  · intro cd1 ns uniq tid g j h
    cases hf : dictFind uniq tid with
    | none => simp [Tagtraum.convertTrack, hf] at h
    | some pr =>
      obtain ⟨a, t⟩ := pr
      simp only [Tagtraum.convertTrack, hf] at h
      obtain rfl := Option.some.inj h
      simp
  · intro cd1 ns uniq tid g1 g2 j h
    cases hf : dictFind uniq tid with
    | none => simp [Tagtraum.convertTrack, hf] at h
    | some pr =>
      obtain ⟨a, t⟩ := pr
      simp only [Tagtraum.convertTrack, hf] at h
      obtain rfl := Option.some.inj h
      constructor
      · simp
      · simp [Tagtraum.minority_confidence]
  · rfl
  · norm_num [Tagtraum.minority_confidence, Tagtraum.majority_confidence]
  · rfl
  · norm_num [Tagtraum.minority_confidence, Tagtraum.majority_confidence]

/-- C3 witness: a concrete two-vote conversion under the cd1 confidences. -/
theorem c3_witness :
    (([⟨"Rock", Tagtraum.majority_confidence true, 0, 0⟩,
       ⟨"Pop", Tagtraum.minority_confidence true, 0, 0⟩] :
        List Tagtraum.TagEvent).map (fun e => e.confidence)).sum = 1 :=
  (c3_confidence_sums.2.1 true "x" [("t", ("a", "b"))] "t" "Rock" "Pop"
    ⟨"a", "b", "t", "x",
      [⟨"Rock", Tagtraum.majority_confidence true, 0, 0⟩,
       ⟨"Pop", Tagtraum.minority_confidence true, 0, 0⟩]⟩ rfl).2

/-- C1 counterexample: in a concrete batch, the track TRAAAAA1 carries votes
but has no identity record, and the track TRAAAAA2 carries votes and has an
identity record; the run emits nothing at all and aborts, so TRAAAAA2 is not
emitted, contradicting the claim that every other track is still processed
and emitted. -/
theorem c1_counterexample :
    Tagtraum.process Tagtraum.exDataset Tagtraum.exUnique = ([], true) ∧
    dictFind (Tagtraum.load_tagtraum_dataset Tagtraum.exDataset).values "TRAAAAA2" =
      some ["Pop"] ∧
    dictFind (Tagtraum.load_msd_metadata Tagtraum.exUnique
        (Tagtraum.load_tagtraum_dataset Tagtraum.exDataset).values) "TRAAAAA2" =
      some ("ArtistB", "TitleB") := by
  refine ⟨?_, ?_, ?_⟩ <;> rfl

/-- C1 (amended): a vote-bearing track id absent from the identity table
makes that track's conversion fail with an uncaught missing-identity lookup
error that aborts the batch: nothing is logged, the failing track and every
track after it in iteration order are not emitted; only tracks converted
before the failure are emitted (each successful head track is emitted and the
loop continues past it). -/
theorem c1_missing_identity_aborts (majc minc : ℚ) (ns : String)
    (uniq : List (String × (String × String))) (tid : String) (gs : List String)
    (rest : List (String × List String)) (h : dictFind uniq tid = none) :
    Tagtraum.convertTrack majc minc ns uniq tid gs = none ∧
    Tagtraum.emitAll majc minc ns uniq ((tid, gs) :: rest) = ([], true) ∧
    (∀ (tid2 : String) (gs2 : List String) (j : Tagtraum.TagJam)
        (more : List (String × List String)),
        Tagtraum.convertTrack majc minc ns uniq tid2 gs2 = some j →
        Tagtraum.emitAll majc minc ns uniq ((tid2, gs2) :: more) =
          (j :: (Tagtraum.emitAll majc minc ns uniq more).1,
           (Tagtraum.emitAll majc minc ns uniq more).2)) := by
  have hconv : Tagtraum.convertTrack majc minc ns uniq tid gs = none := by
    simp [Tagtraum.convertTrack, h]
  refine ⟨hconv, ?_, ?_⟩
  · simp [Tagtraum.emitAll, hconv]
  · intro tid2 gs2 j more h2
    simp [Tagtraum.emitAll, h2]

/-- C1 witness: the abort behaviour evaluated at a concrete one-track batch
with an empty identity table. -/
theorem c1_witness :
    Tagtraum.emitAll 1 0 "x" [] [("t", ["Rock"])] = ([], true) :=
  (c1_missing_identity_aborts 1 0 "x" [] "t" ["Rock"] [] rfl).2.1

/-! ### Claims about isophonics_parser.py -/

/-- C4 (amended): for every annotation set with a (positionally) last event,
the derived duration is the time of that last event plus its duration, in
seconds; on an empty set the derivation raises an indexing error (the track's
conversion fails) instead of leaving the duration unset. -/
theorem c4_duration_derivation (rows : List Isophonics.Row) (r : Isophonics.Row) :
    (rows.getLast? = some r →
       Isophonics.get_duration_from_annot rows = some (r.2.time + r.2.duration)) ∧
    Isophonics.get_duration_from_annot [] = none := by
  constructor
  · intro h
    unfold Isophonics.get_duration_from_annot
    rw [h]
  · rfl

/-- C4 counterexample: an empty chord annotation makes the whole file step
fail (`none`), while the same file with one event succeeds and sets the
duration; the duration does not remain unset on the empty set. -/
theorem c4_counterexample :
    Isophonics.stepFile Isophonics.noFloat "root" ⟨[], []⟩
        ("root/chordlab/Artist/track.lab", []) = none ∧
    Isophonics.stepFile Isophonics.noFloat "root" ⟨[], []⟩
        ("root/chordlab/Artist/track.lab", [⟨0, 2, .s "C"⟩]) =
      some ⟨[("track", ⟨"Artist", some ((0 : ℚ) + 2),
        [⟨"chord_harte", [(0, ⟨0, 2, .s "C"⟩)], true⟩]⟩)], ["track"]⟩ :=
  ⟨rfl, rfl⟩

/-- C4 witness: the duration equation evaluated at a concrete one-row set. -/
theorem c4_witness :
    Isophonics.get_duration_from_annot [(0, ⟨1, 2, .s "C"⟩)] = some ((1 : ℚ) + 2) :=
  (c4_duration_derivation [(0, ⟨1, 2, .s "C"⟩)] (0, ⟨1, 2, .s "C"⟩)).1 rfl

/-- C5: whenever chord, key, or segment normalization succeeds, every event
of the output annotation set has duration strictly greater than 0; in
particular no input event with non-positive duration appears in the output
set. -/
theorem c5_positive_durations (evs : List Isophonics.LabEvent) (out : List Isophonics.Row) :
    (Isophonics.normalizeChord evs = some out → ∀ r ∈ out, 0 < r.2.duration) ∧
    (Isophonics.normalizeKey evs = some out → ∀ r ∈ out, 0 < r.2.duration) ∧
    (Isophonics.normalizeSegment evs = some out → ∀ r ∈ out, 0 < r.2.duration) ∧
    (∀ e : Isophonics.LabEvent, e.duration ≤ 0 →
       (Isophonics.normalizeChord evs = some out ∨ Isophonics.normalizeKey evs = some out ∨
         Isophonics.normalizeSegment evs = some out) →
       ∀ r ∈ out, r.2 ≠ e) := by
  have hchord : Isophonics.normalizeChord evs = some out → ∀ r ∈ out, 0 < r.2.duration := by
    intro h
    unfold Isophonics.normalizeChord at h
    rw [Isophonics.fix_chord_labels_fresh] at h
    exact Isophonics.fix_ranges_fresh_pos _ _ h
  have hkey : Isophonics.normalizeKey evs = some out → ∀ r ∈ out, 0 < r.2.duration := by
    intro h
    unfold Isophonics.normalizeKey at h
    rw [Isophonics.fix_key_labels_fresh] at h
    cases hfr : Isophonics.fix_ranges (Isophonics.labelRows
        (evs.map (fun e => { e with value := Isophonics.valFix Isophonics.KEYS_DICT e.value }))) with
    | none =>
      rw [hfr] at h
      have h2 : (none : Option (List Isophonics.Row)) = some out := h
      cases h2
    | some rows1 =>
      rw [hfr] at h
      have h2 : Isophonics.fix_silence rows1 = some out := h
      unfold Isophonics.fix_silence at h2
      intro r hr
      exact Isophonics.fix_ranges_fresh_pos _ _ hfr r
        (Isophonics.dropLabels_subset _ _ _ h2 r hr)
  have hseg : Isophonics.normalizeSegment evs = some out → ∀ r ∈ out, 0 < r.2.duration := by
    intro h
    exact Isophonics.fix_ranges_fresh_pos _ _ h
  refine ⟨hchord, hkey, hseg, ?_⟩
  intro e hle hor r hr heq
  have hpos : 0 < r.2.duration := by
    rcases hor with h | h | h
    · exact hchord h r hr
    · exact hkey h r hr
    · exact hseg h r hr
  rw [heq] at hpos
  exact absurd hle (not_le.mpr hpos)

/-- C5 witness: chord normalization on a concrete set with one zero-duration
event keeps only the positive event. -/
theorem c5_witness :
    (0 : ℚ) < ((1, (⟨0, 1, .s "A"⟩ : Isophonics.LabEvent)) : Isophonics.Row).2.duration :=
  (c5_positive_durations [⟨0, 0, .s "N"⟩, ⟨0, 1, .s "A"⟩] [(1, ⟨0, 1, .s "A"⟩)]).1 rfl
    (1, ⟨0, 1, .s "A"⟩) (by simp)

/-- C6 (code bug): key normalization of the set
silence(duration 0), C(duration 1), silence(duration 1) retains the trailing
silence event and instead drops the non-silence event C: fix_silence collects
positional indices but drops by pandas index label, and fix_ranges has
already left a gap in the index. The fix_silence docstring says it removes
the silences; here a silence survives and a non-silence is removed. -/
theorem c6_silence_bug :
    Isophonics.normalizeKey
        [⟨0, 0, .s "silence"⟩, ⟨0, 1, .s "C"⟩, ⟨1, 1, .s "silence"⟩] =
      some [(2, ⟨1, 1, .s "silence"⟩)] ∧
    Isophonics.isSilence (Isophonics.Val.s "silence") = true ∧
    Isophonics.isSilence (Isophonics.Val.s "C") = false :=
  ⟨rfl, rfl, rfl⟩

/-- C8 (amended): a file whose path has too few segments for artist
extraction raises an uncaught IndexError at its first encounter: the file is
not reported-and-skipped, the step fails and the whole run aborts, so none of
the remaining files is processed. -/
theorem c8_shallow_path_aborts (pyFloat : String → Option ℚ) (in_dir : String)
    (st : Isophonics.IsoState) (path : String) (evs : List Isophonics.LabEvent)
    (fs : List (String × List Isophonics.LabEvent))
    (hnew : dictFind st.tracks (filebase path) = none)
    (hparts : (Isophonics.pathParts in_dir path).get? 1 = none) :
    Isophonics.stepFile pyFloat in_dir st (path, evs) = none ∧
    Isophonics.processFiles pyFloat in_dir st ((path, evs) :: fs) = none := by
  have hparts2 : (Isophonics.pathParts in_dir path)[1]? = none := by
    simpa using hparts
  have hfe : Isophonics.firstEncounter in_dir st path = none := by
    simp [Isophonics.firstEncounter, hnew, hparts2]
  have hstep : Isophonics.stepFile pyFloat in_dir st (path, evs) = none := by
    simp [Isophonics.stepFile, hfe]
  exact ⟨hstep, by simp [Isophonics.processFiles, hstep]⟩

/-- C8 counterexample: a concrete run with a too-shallow first file and a
well-formed second chord file aborts with no output state at all, so the
remaining file is not processed. -/
theorem c8_counterexample :
    Isophonics.processFiles Isophonics.noFloat "root" ⟨[], []⟩
      [("root/track.lab", []), ("root/chordlab/Artist/good.lab", [⟨0, 2, .s "C"⟩])] =
      none := rfl

/-- C8 witness: the abort evaluated at a concrete too-shallow path. -/
theorem c8_witness :
    Isophonics.stepFile Isophonics.noFloat "root" ⟨[], []⟩ ("root/track.lab", []) = none :=
  (c8_shallow_path_aborts Isophonics.noFloat "root" ⟨[], []⟩ "root/track.lab" [] [] rfl rfl).1

/-- C9 (amended): a file whose path matches none of the category keywords is
not logged at all; when its track already has an annotation set the file is
skipped (the state is unchanged except that the constant metadata block is
re-assigned to the previous annotation set: log, artists, durations,
namespaces and event data are untouched), but when it is the track's first
file the metadata assignment indexes an empty annotation list and the run
aborts with an uncaught IndexError. -/
theorem c9_unmatched_file (pyFloat : String → Option ℚ) (in_dir : String)
    (st : Isophonics.IsoState) (path : String) (evs : List Isophonics.LabEvent)
    (hnc : Isophonics.matchesNoCategory path = true) :
    (∀ tr : Isophonics.Track, dictFind st.tracks (filebase path) = some tr →
       tr.annots ≠ [] →
       ∃ st' : Isophonics.IsoState,
         Isophonics.stepFile pyFloat in_dir st (path, evs) = some st' ∧
         st'.log = st.log ∧
         st'.tracks.map (fun p =>
             (p.1, p.2.artist, p.2.duration, p.2.annots.map (fun a => (a.ns, a.data)))) =
           st.tracks.map (fun p =>
             (p.1, p.2.artist, p.2.duration, p.2.annots.map (fun a => (a.ns, a.data))))) ∧
    (∀ artist : String, dictFind st.tracks (filebase path) = none →
       (Isophonics.pathParts in_dir path).get? 1 = some artist →
       Isophonics.stepFile pyFloat in_dir st (path, evs) = none) := by
  obtain ⟨hb, hch, hk, hsg⟩ := Isophonics.matchesNoCategory_spec path hnc
  constructor
  · intro tr htr hann
    have hfe : Isophonics.firstEncounter in_dir st path = some st := by
      simp [Isophonics.firstEncounter, htr]
    have hdp : Isophonics.dispatch pyFloat st (filebase path) path evs = some st := by
      simp [Isophonics.dispatch, hb, hch, hk, hsg]
    have hlast := List.getLast?_eq_getLast_of_ne_nil hann
    have hsplit : tr.annots.dropLast ++ [tr.annots.getLast hann] = tr.annots :=
      List.dropLast_append_getLast hann
    refine ⟨⟨Isophonics.updateTrack st.tracks (filebase path) (fun tr2 => { tr2 with annots := tr2.annots.dropLast ++ [{ tr.annots.getLast hann with hasMeta := true }] }), st.log⟩, ?_, rfl, ?_⟩
    · simp only [Isophonics.stepFile, hfe, hdp, Isophonics.attachMeta, htr, hlast]
    · refine Isophonics.updateTrack_map_found _ _ _ _ tr htr ?_
      have hann2 : (tr.annots.dropLast ++
          [{ tr.annots.getLast hann with hasMeta := true }]).map
            (fun a : Isophonics.Annot => (a.ns, a.data)) =
          tr.annots.map (fun a : Isophonics.Annot => (a.ns, a.data)) := by
        conv_rhs => rw [← hsplit]
        rw [List.map_append, List.map_append]
        rfl
      simp only [Prod.mk.injEq]
      exact ⟨trivial, trivial, trivial, hann2⟩
  · intro artist hnone hget
    have hget2 : (Isophonics.pathParts in_dir path)[1]? = some artist := by
      simpa using hget
    have hfe : Isophonics.firstEncounter in_dir st path =
        some ⟨dictInsert st.tracks (filebase path) ⟨artist, none, []⟩,
              st.log ++ [filebase path]⟩ := by
      simp [Isophonics.firstEncounter, hnone, hget2]
    have hfind1 : dictFind (dictInsert st.tracks (filebase path)
        (⟨artist, none, []⟩ : Isophonics.Track)) (filebase path) =
        some ⟨artist, none, []⟩ := by
      rw [dictFind_insert]
      simp
    have hdp : Isophonics.dispatch pyFloat
        ⟨dictInsert st.tracks (filebase path) ⟨artist, none, []⟩,
         st.log ++ [filebase path]⟩ (filebase path) path evs =
        some ⟨dictInsert st.tracks (filebase path) ⟨artist, none, []⟩,
              st.log ++ [filebase path]⟩ := by
      simp [Isophonics.dispatch, hb, hch, hk, hsg]
    have ham : Isophonics.attachMeta
        ⟨dictInsert st.tracks (filebase path) ⟨artist, none, []⟩,
         st.log ++ [filebase path]⟩ (filebase path) = none := by
      simp [Isophonics.attachMeta, hfind1]
    simp [Isophonics.stepFile, hfe, hdp, ham]

/-- C9 counterexample: a concrete file matching no category keyword, with a
valid artist segment, makes the whole step fail (run aborts) instead of being
skipped with a warning. -/
theorem c9_counterexample :
    Isophonics.matchesNoCategory "root/other/Artist/track.lab" = true ∧
    Isophonics.stepFile Isophonics.noFloat "root" ⟨[], []⟩
      ("root/other/Artist/track.lab", []) = none :=
  ⟨rfl, rfl⟩

/-- C9 witness: the first-file abort evaluated at a concrete path. -/
theorem c9_witness :
    Isophonics.stepFile Isophonics.noFloat "root" ⟨[], []⟩
      ("root/other/Artist/track.lab", []) = none :=
  (c9_unmatched_file Isophonics.noFloat "root" ⟨[], []⟩ "root/other/Artist/track.lab" [] rfl).2
    "Artist" rfl rfl
